import Mathlib

set_option maxRecDepth 8192

/-!
Instrumentor: the asynchronous trace-event pipeline.

A shallow embedding of `src/Instrumentor.hpp` (namespace `Profiling`).

The controller object is a record of its data members; each member function is
a function on that record.  The consumer thread is embedded as a small-step
function (`LoopStep`) over its position in `Loop`: before the header, at the
top of the loop, between a failed evaluation of the wait predicate and the
block (`parking`), blocked in `cv.wait` (`parked`), returned.  Producers are
embedded by `AddProfileResult`; a schedule is a list of `Action`s.
`EndSession` sets the shutdown flag, notifies and joins.

Modelling decisions:

* steps are atomic.  A successful evaluation of the wait predicate and the loop
  body that follows it are one step: in between no other thread can make the
  predicate false, since only the consumer pops and the flag is never cleared.
  A failed evaluation and the block that follows it are two steps, because
  `EndSession` and `AddProfileResult` notify without holding `cvMutex`: a
  notification that arrives between the two finds nobody waiting and is lost.
  The push and the notification of `AddProfileResult` are one step; a wake-up
  that reaches the consumer later is the action `wake`.  The store to
  `endSession` and the notification of `EndSession` are two steps, with the
  consumer scheduled `gap` times in between;
* `PROFILINGQUEUESIZEOUTPUT` is not defined;
* text is `String`, a `Char` standing for one element of a `std::string`;
  `operator<<` is `OFStream.put`, which appends;
* whether the file system opens a path for writing is an argument of
  `BeginSession`; the empty path is never opened;
* time points are their microsecond counts (`Int`); clock readings and the
  consumer's thread id are arguments of the step that reads them;
* `long long` subtraction is two's-complement (`wrapInt64`);
* `std::size_t ProfileCount` is a `Nat`: every increment comes with a record
  handed to the sink, so no session reaches `2^64`;
* `exit(1)`, a failed `assert` and `std::terminate` are outcomes of the call
  that reaches them (`Outcome.exited`, `Outcome.aborted`); assertions are
  compiled in;
* the diagnostics on `std::cout` / `std::cerr` are not part of the state.
-/

namespace Profiling

/-- The double-quote character, code point 34. -/
def dquote : Char := Char.ofNat 34

/-- The single-quote character, code point 39. -/
def squote : Char := Char.ofNat 39

/-- Data of `struct ProfileResult`: `std::string Name; long long Start; long long End;
std::size_t ThreadID`. -/
structure ProfileResult where
  Name : String
  Start : Int
  End : Int
  ThreadID : Nat
deriving DecidableEq, Repr

/-- Reading of an integer as a two's-complement signed 64-bit value (`long long`). -/
def wrapInt64 (x : Int) : Int := (x + 2 ^ 63) % 2 ^ 64 - 2 ^ 63

/-- Effect of `std::replace(first, last, old, new)` over the characters of a string. -/
def std_replace (str : String) (old new : Char) : String :=
  String.mk (str.data.map (fun c => if c = old then new else c))

/-- State of `std::ofstream OStream`.  `isOpen` holds when a file is open and no
error bit is set, that is, when `<<` reaches the file; `path` is the path of
the last successful open and `text` the content of that file. -/
structure OFStream where
  isOpen : Bool
  path : String
  text : String
deriving DecidableEq, Repr

namespace OFStream

/-- Effect of `OStream << str`: appends to the open file; on a stream that has no
file open, or has an error bit set, nothing is written. -/
def put (o : OFStream) (str : String) : OFStream :=
  if o.isOpen then { o with text := o.text ++ str } else o

/-- Effect of `OStream.open(filepath)`.  `opens` tells whether the file system
opens the path for writing.  The call succeeds on a closed stream, for a
non-empty path the file system opens: the file is truncated.  Otherwise (empty
path, unwritable path, stream already open) it fails and sets an error bit, no
file is touched, and from then on nothing reaches a file. -/
def openPath (opens : Bool) (o : OFStream) (filepath : String) : OFStream :=
  if o.isOpen = false ∧ opens = true ∧ filepath ≠ "" then
    { isOpen := true, path := filepath, text := "" }
  else
    { o with isOpen := false }

/-- Effect of `OStream.close()`. -/
def close (o : OFStream) : OFStream := { o with isOpen := false }

end OFStream

/-- State of `std::thread mythread`, together with the position of the consumer
inside `Loop`. -/
inductive Thread where
  /-- default-constructed or joined: not joinable -/
  | empty
  /-- constructed by `BeginSession`; `Loop` has not yet written the header -/
  | spawned
  /-- at the top of `while (true)`, holding `cvMutex`, about to evaluate the
  wait predicate -/
  | running
  /-- inside `cv.wait`: the predicate was found false, `cvMutex` is still held
  and the thread is not yet blocked -/
  | parking
  /-- blocked in `cv.wait` until a notification arrives -/
  | parked
  /-- returned from `Loop`; the handle is joinable until joined -/
  | finished
deriving DecidableEq, Repr

/-- Result of `mythread.joinable()`. -/
def Thread.joinable : Thread → Bool
  | Thread.empty => false
  | _ => true

/-- Data members of `class Instrumentor` (the mutexes and the condition variable
are the atomicity of the steps below and the positions of `Thread`). -/
structure Instrumentor where
  CurrentSession : String
  OStream : OFStream
  ProfileCount : Nat
  Queue : List ProfileResult
  mythread : Thread
  endSession : Bool
  EndSessionStartTimepoint : Int
deriving DecidableEq, Repr

/-- Outcome of a call that may end the process. -/
inductive Outcome where
  /-- the call returned, leaving this state -/
  | returned (s : Instrumentor)
  /-- the call reached `exit(code)` in this state -/
  | exited (code : Nat) (s : Instrumentor)
  /-- the call failed an `assert` or reached `std::terminate` in this state -/
  | aborted (s : Instrumentor)
deriving DecidableEq, Repr

/-- The state a call returned with, if it returned. -/
def Outcome.state? : Outcome → Option Instrumentor
  | Outcome.returned s => some s
  | Outcome.exited _ _ => none
  | Outcome.aborted _ => none

/-- Result of one pass through the body of `while (true)` in `Loop`. -/
inductive LoopResult where
  /-- the body fell through: the loop goes round again -/
  | again (s : Instrumentor)
  /-- the body executed `return` -/
  | done (s : Instrumentor)
deriving DecidableEq, Repr

namespace Instrumentor

/-- A freshly constructed `Instrumentor` (default member initialisers). -/
def fresh : Instrumentor :=
  { CurrentSession := ""
    OStream := { isOpen := false, path := "", text := "" }
    ProfileCount := 0
    Queue := []
    mythread := Thread.empty
    endSession := false
    EndSessionStartTimepoint := 0 }

/-- Embedding of `Instrumentor::WriteHeader`. -/
def WriteHeader (s : Instrumentor) : Instrumentor :=
  { s with OStream := s.OStream.put "\x7b\"otherData\": \x7b\x7d,\"traceEvents\":[" }

/-- Embedding of `Instrumentor::WriteFooter`. -/
def WriteFooter (s : Instrumentor) : Instrumentor :=
  { s with OStream := s.OStream.put "]\x7d" }

/-- Embedding of `Instrumentor::WriteProfile`: one `put` per `<<` of the source, in
the source's order.  The loop that prints a diagnostic per backslash leaves
`name` as it is. -/
def WriteProfile (result : ProfileResult) (s : Instrumentor) : Instrumentor :=
  let o0 := if s.ProfileCount > 0 then s.OStream.put "," else s.OStream
  let name := std_replace result.Name dquote squote
  let o1 := o0.put "\x7b"
  let o2 := o1.put "\"cat\":\"function\","
  let o3 := ((o2.put "\"dur\":").put (toString (wrapInt64 (result.End - result.Start)))).put ","
  let o4 := ((o3.put "\"name\":\"").put name).put "\","
  let o5 := o4.put "\"ph\":\"X\","
  let o6 := o5.put "\"pid\":0,"
  let o7 := ((o6.put "\"tid\":").put (toString result.ThreadID)).put ","
  let o8 := (o7.put "\"ts\":").put (toString result.Start)
  let o9 := o8.put "\x7d"
  { s with ProfileCount := s.ProfileCount + 1, OStream := o9 }

/-- The predicate handed to `cv.wait` in `Loop`: the flag, then the queue. -/
def waitPredicate (s : Instrumentor) : Bool :=
  if s.endSession then true
  else if !s.Queue.isEmpty then true
  else false

/-- Effect of `cv.notify_one()` on the consumer: a consumer blocked in `cv.wait` is
woken and goes back to evaluating the predicate; a consumer anywhere else does
not notice. -/
def notify_one (s : Instrumentor) : Instrumentor :=
  match s.mythread with
  | Thread.parked => { s with mythread := Thread.running }
  | _ => s

/-- Body of `while (true)` in `Loop`, from the point where `cv.wait` has returned
and `QueueMutex` is held.  `now` is the clock reading taken by the closing
branch, `threadID` the consumer's id. -/
def LoopBody (now : Int) (threadID : Nat) (s : Instrumentor) : LoopResult :=
  if s.endSession && s.Queue.isEmpty then
    let start := s.EndSessionStartTimepoint
    let s1 := WriteProfile
      { Name := "EndSession " ++ s.CurrentSession, Start := start, End := now,
        ThreadID := threadID } s
    let s2 := WriteFooter s1
    LoopResult.done { s2 with OStream := s2.OStream.close }
  else
    match s.Queue with
    | pr :: rest => LoopResult.again (WriteProfile pr { s with Queue := rest })
    | [] => LoopResult.again s

/-- One scheduling of the consumer thread running `Loop`.  On entry it writes the
header.  At the top of the loop it evaluates the wait predicate: when true the
wait returns and the body runs, when false the thread is about to block.  A
thread about to block blocks.  A blocked thread, a thread that does not exist
and a thread that has returned do nothing. -/
def LoopStep (now : Int) (threadID : Nat) (s : Instrumentor) : Instrumentor :=
  match s.mythread with
  | Thread.spawned => { WriteHeader s with mythread := Thread.running }
  | Thread.running =>
    if waitPredicate s then
      match LoopBody now threadID s with
      | LoopResult.again s1 => s1
      | LoopResult.done s1 => { s1 with mythread := Thread.finished }
    else
      { s with mythread := Thread.parking }
  | Thread.parking => { s with mythread := Thread.parked }
  | Thread.parked => s
  | Thread.empty => s
  | Thread.finished => s

/-- Embedding of `Instrumentor::BeginSession`.  `opens` tells whether the file
system opens `filepath`.  The assertion fails when a session name is recorded;
assigning the new thread to `mythread` reaches `std::terminate` when the old
handle is joinable. -/
def BeginSession (opens : Bool) (name : String) (filepath : String) (s : Instrumentor) :
    Outcome :=
  if s.CurrentSession ≠ "" then
    Outcome.aborted s
  else
    let s1 := { s with
      ProfileCount := 0
      OStream := s.OStream.openPath opens filepath
      CurrentSession := name }
    if s1.mythread.joinable then
      Outcome.aborted s1
    else
      Outcome.returned { s1 with mythread := Thread.spawned }

/-- Embedding of `Instrumentor::AddProfileResult`: the guard, the push under
`QueueMutex`, the notification (sent without `cvMutex`, so it is lost on a
consumer that is about to block). -/
def AddProfileResult (pr : ProfileResult) (s : Instrumentor) : Outcome :=
  if s.CurrentSession = "" then
    Outcome.exited 1 s
  else
    Outcome.returned (notify_one { s with Queue := s.Queue ++ [pr] })

/-- Effect of `mythread.join()`: the caller is blocked while the consumer is
scheduled, until `Loop` has returned.  `fuel` bounds the number of schedulings;
`none` means the consumer has not returned within them.  A blocked consumer is
woken by nothing here: no producer runs during the join and no spurious
wake-up is assumed. -/
def join (now : Int) (threadID : Nat) : Nat → Instrumentor → Option Instrumentor
  | 0, s => if s.mythread = Thread.finished then some s else none
  | fuel + 1, s =>
    if s.mythread = Thread.finished then some s
    else join now threadID fuel (LoopStep now threadID s)

/-- Embedding of `Instrumentor::EndSession`.  `now` is the clock reading on entry,
`nowEnd` the reading the consumer takes when it closes, `threadID` the
consumer's id.  `gap` is the number of times the consumer is scheduled between
the store to `endSession` and the notification, `fuel` the bound handed to
`join`. -/
def EndSession (now nowEnd : Int) (threadID : Nat) (gap fuel : Nat) (s : Instrumentor) :
    Option Instrumentor :=
  let s0 := { s with EndSessionStartTimepoint := now }
  if s0.mythread.joinable then
    let s1 := { s0 with endSession := true }
    let s2 := notify_one ((LoopStep nowEnd threadID)^[gap] s1)
    match join nowEnd threadID fuel s2 with
    | some s3 => some { s3 with mythread := Thread.empty, CurrentSession := "" }
    | none => none
  else
    some { s0 with CurrentSession := "" }

end Instrumentor

/-- One atomic step of a running program between `BeginSession` and `EndSession`. -/
inductive Action where
  /-- a producer thread completes `AddProfileResult(pr)` -/
  | push (pr : ProfileResult)
  /-- the consumer thread is scheduled once -/
  | consume (now : Int) (threadID : Nat)
  /-- a wake-up reaches the consumer: a notification delivered late, or a
  spurious wake-up -/
  | wake
deriving DecidableEq, Repr

/-- The records a schedule pushes, in the order of their pushes. -/
def pushed : List Action → List ProfileResult
  | [] => []
  | Action.push pr :: rest => pr :: pushed rest
  | Action.consume _ _ :: rest => pushed rest
  | Action.wake :: rest => pushed rest

/-- Execution of a schedule, step by step; an `exit` ends it. -/
def runActions : List Action → Instrumentor → Outcome
  | [], s => Outcome.returned s
  | Action.push pr :: rest, s =>
    match Instrumentor.AddProfileResult pr s with
    | Outcome.returned s1 => runActions rest s1
    | Outcome.exited c s1 => Outcome.exited c s1
    | Outcome.aborted s1 => Outcome.aborted s1
  | Action.consume now threadID :: rest, s =>
    runActions rest (Instrumentor.LoopStep now threadID s)
  | Action.wake :: rest, s =>
    runActions rest (Instrumentor.notify_one s)

/-- A whole session on the state `s`: `BeginSession`, a schedule, `EndSession`.
`none` stands for a session that did not come back from `EndSession` (a call
ended the process, or the join did not return). -/
def runSession (opens : Bool) (name filepath : String) (acts : List Action)
    (now nowEnd : Int) (threadID : Nat) (gap fuel : Nat) (s : Instrumentor) :
    Option Instrumentor :=
  match Instrumentor.BeginSession opens name filepath s with
  | Outcome.returned sb =>
    match runActions acts sb with
    | Outcome.returned s1 => Instrumentor.EndSession now nowEnd threadID gap fuel s1
    | Outcome.exited _ _ => none
    | Outcome.aborted _ => none
  | Outcome.exited _ _ => none
  | Outcome.aborted _ => none

/-! ### The trace container the specification describes -/

namespace Spec

/-- Opening bytes of the trace container (specification, section 6). -/
def header : String := "\x7b\"otherData\": \x7b\x7d,\"traceEvents\":["

/-- Closing bytes of the trace container (specification, section 6). -/
def footer : String := "]\x7d"

/-- One record as the specification words it: the object with the keys `cat`,
`dur`, `name`, `ph`, `pid`, `tid`, `ts` in this order, `dur` being the signed
64-bit difference `End - Start` and `name` the name with every double quote
replaced by a single quote. -/
def recordJson (r : ProfileResult) : String :=
  "\x7b\"cat\":\"function\",\"dur\":" ++ toString (wrapInt64 (r.End - r.Start))
    ++ ",\"name\":\"" ++ std_replace r.Name dquote squote
    ++ "\",\"ph\":\"X\",\"pid\":0,\"tid\":" ++ toString r.ThreadID
    ++ ",\"ts\":" ++ toString r.Start ++ "\x7d"

/-- The synthetic record that closes the session `name`. -/
def closingRecord (name : String) (start now : Int) (threadID : Nat) : ProfileResult :=
  { Name := "EndSession " ++ name, Start := start, End := now, ThreadID := threadID }

/-- The whole file for the records `rs`: header, the records joined by single
commas, footer. -/
def traceFile (rs : List ProfileResult) : String :=
  header ++ String.intercalate "," (rs.map recordJson) ++ footer

/-- No session is active: no joinable consumer thread and no session name. -/
def Inactive (s : Instrumentor) : Prop :=
  s.CurrentSession = "" ∧ s.mythread.joinable = false

/-- A session is active: a session name is recorded and a consumer thread exists. -/
def Active (s : Instrumentor) : Prop :=
  s.CurrentSession ≠ "" ∧ s.mythread.joinable = true

/-- The text in the sink once the header and the records `ws` are written and
the footer is not. -/
def fileSoFar (ws : List ProfileResult) : String :=
  header ++ String.intercalate "," (ws.map recordJson)

end Spec

/-! ### Sample data -/

/-- A record with start 1000 and end 2500. -/
def sampleA : ProfileResult :=
  { Name := "load", Start := 1000, End := 2500, ThreadID := 7 }

/-- A record whose name holds two double quotes. -/
def sampleB : ProfileResult :=
  { Name := "He said \"hi\"", Start := 3000, End := 3400, ThreadID := 8 }

/-- A schedule: a push, the consumer twice, a second push. -/
def sampleActs : List Action :=
  [Action.push sampleA, Action.consume 0 1, Action.consume 0 1, Action.push sampleB]

/-- A schedule in which the consumer writes the header and finds the wait
predicate false, and a record is pushed before the consumer blocks. -/
def sampleLostNotify : List Action :=
  [Action.consume 0 1, Action.consume 0 1, Action.push sampleA]

/-- A state whose consumer is at the top of the loop over an open, empty sink. -/
def sampleOpen : Instrumentor :=
  { Instrumentor.fresh with
    CurrentSession := "main"
    OStream := { isOpen := true, path := "trace.json", text := "" }
    mythread := Thread.running }

/-! ### Invariants -/

/-- The consumer is inside `while (true)`. -/
def Thread.looping : Thread → Bool
  | Thread.running => true
  | Thread.parking => true
  | Thread.parked => true
  | _ => false

/-- Invariant of a session named `name` writing to `filepath`, at any moment
between `BeginSession` and the return of `EndSession`: the records written so
far (`w`), followed by the queue, are `all`; before the consumer has started
the sink is empty, while it loops the sink holds the header and the written
records, and once it has returned the sink is closed and holds the whole
file. -/
def SessionInv (name filepath : String) (all : List ProfileResult) (s : Instrumentor) : Prop :=
  s.CurrentSession = name ∧ s.OStream.path = filepath ∧
  ∃ w : List ProfileResult, w ++ s.Queue = all ∧
    ((s.mythread = Thread.spawned ∧ s.OStream.isOpen = true ∧ w = [] ∧
        s.OStream.text = "" ∧ s.ProfileCount = 0) ∨
     (s.mythread.looping = true ∧ s.OStream.isOpen = true ∧
        s.OStream.text = Spec.fileSoFar w ∧ s.ProfileCount = w.length) ∨
     (s.mythread = Thread.finished ∧ s.OStream.isOpen = false ∧
        ∃ (tp now : Int) (tid : Nat),
          s.OStream.text = Spec.traceFile (w ++ [Spec.closingRecord name tp now tid])))

/-- A session whose shutdown has not been requested: the flag is clear and the
consumer has not returned. -/
def Live (s : Instrumentor) : Prop :=
  s.endSession = false ∧ s.mythread ≠ Thread.finished

/-- Invariant of a session whose shutdown was requested at `now` while it was
live: the flag is set, and a consumer that has returned has emptied the queue
and left the whole file, closed by the record from `now` to `nowEnd`. -/
def DrainInv (name filepath : String) (now nowEnd : Int) (tid : Nat)
    (all : List ProfileResult) (s : Instrumentor) : Prop :=
  SessionInv name filepath all s ∧ s.endSession = true ∧
  s.EndSessionStartTimepoint = now ∧
  (s.mythread = Thread.finished →
    s.Queue = [] ∧ s.ProfileCount = all.length + 1 ∧
    s.OStream.text = Spec.traceFile (all ++ [Spec.closingRecord name now nowEnd tid]))

/-! ## Lemmas on the sink and on the consumer steps -/

open Instrumentor

theorem put_open (o : OFStream) (str : String) (h : o.isOpen = true) :
    o.put str = { o with text := o.text ++ str } := by
  simp [OFStream.put, h]

theorem WriteProfile_open (r : ProfileResult) (s : Instrumentor) (h : s.OStream.isOpen = true) :
    WriteProfile r s =
      { s with
        ProfileCount := s.ProfileCount + 1
        OStream := { s.OStream with
          text := s.OStream.text ++ (if s.ProfileCount > 0 then "," else "") ++ Spec.recordJson r } } := by
  unfold WriteProfile Spec.recordJson
  have e1 : ("\x7b\"cat\":\"function\",\"dur\":" : String)
      = "\x7b" ++ "\"cat\":\"function\"," ++ "\"dur\":" := by decide
  have e2 : (",\"name\":\"" : String) = "," ++ "\"name\":\"" := by decide
  have e3 : ("\",\"ph\":\"X\",\"pid\":0,\"tid\":" : String)
      = "\"," ++ "\"ph\":\"X\"," ++ "\"pid\":0," ++ "\"tid\":" := by decide
  have e4 : (",\"ts\":" : String) = "," ++ "\"ts\":" := by decide
  rw [e1, e2, e3, e4]
  by_cases hc : s.ProfileCount > 0
  · simp only [hc, h, put_open, if_true, String.append_assoc]
  · simp only [hc, h, put_open, if_false, String.append_assoc, String.empty_append]

theorem intercalate_go_snoc (sep : String) (l : List String) (acc x : String) :
    String.intercalate.go acc sep (l ++ [x]) = String.intercalate.go acc sep l ++ sep ++ x := by
  induction l generalizing acc with
  | nil => simp [String.intercalate.go]
  | cons a l ih => simp [String.intercalate.go, ih]

theorem intercalate_snoc (sep : String) (l : List String) (x : String) :
    String.intercalate sep (l ++ [x]) =
      (if l = [] then x else String.intercalate sep l ++ sep ++ x) := by
  cases l with
  | nil => simp [String.intercalate, String.intercalate.go]
  | cons a l => simp [String.intercalate, intercalate_go_snoc]

theorem fileSoFar_snoc (w : List ProfileResult) (r : ProfileResult) :
    Spec.fileSoFar (w ++ [r]) =
      Spec.fileSoFar w ++ (if w.length > 0 then "," else "") ++ Spec.recordJson r := by
  unfold Spec.fileSoFar
  rw [List.map_append, List.map_singleton, intercalate_snoc]
  cases w with
  | nil => simp [String.intercalate]
  | cons a l => simp [String.append_assoc]

theorem fileSoFar_nil : Spec.fileSoFar [] = Spec.header := by decide

theorem traceFile_eq (ws : List ProfileResult) :
    Spec.traceFile ws = Spec.fileSoFar ws ++ Spec.footer := rfl

theorem traceFile_ne_empty (ws : List ProfileResult) : Spec.traceFile ws ≠ "" := by
  intro h
  have hl := congrArg String.length h
  simp only [Spec.traceFile, String.length_append] at hl
  have : Spec.header.length = 32 := by decide
  simp [this] at hl

theorem LoopStep_spawned (now : Int) (tid : Nat) (s : Instrumentor)
    (ht : s.mythread = Thread.spawned) :
    LoopStep now tid s = { WriteHeader s with mythread := Thread.running } := by
  simp [LoopStep, ht]

theorem LoopStep_drain (now : Int) (tid : Nat) (s : Instrumentor) (pr : ProfileResult)
    (rest : List ProfileResult) (ht : s.mythread = Thread.running) (hq : s.Queue = pr :: rest) :
    LoopStep now tid s = WriteProfile pr { s with Queue := rest } := by
  simp [LoopStep, LoopBody, waitPredicate, ht, hq]

theorem LoopStep_close (now : Int) (tid : Nat) (s : Instrumentor)
    (ht : s.mythread = Thread.running) (hq : s.Queue = []) (he : s.endSession = true) :
    LoopStep now tid s =
      { (WriteFooter (WriteProfile
          (Spec.closingRecord s.CurrentSession s.EndSessionStartTimepoint now tid) s)) with
        OStream := (WriteFooter (WriteProfile
          (Spec.closingRecord s.CurrentSession s.EndSessionStartTimepoint now tid) s)).OStream.close
        mythread := Thread.finished } := by
  simp [LoopStep, LoopBody, waitPredicate, ht, hq, he, Spec.closingRecord]

theorem LoopStep_park (now : Int) (tid : Nat) (s : Instrumentor)
    (ht : s.mythread = Thread.running) (hq : s.Queue = []) (he : s.endSession = false) :
    LoopStep now tid s = { s with mythread := Thread.parking } := by
  simp [LoopStep, waitPredicate, ht, hq, he]

theorem LoopStep_parking (now : Int) (tid : Nat) (s : Instrumentor)
    (ht : s.mythread = Thread.parking) :
    LoopStep now tid s = { s with mythread := Thread.parked } := by
  simp [LoopStep, ht]

theorem LoopStep_parked (now : Int) (tid : Nat) (s : Instrumentor)
    (ht : s.mythread = Thread.parked) : LoopStep now tid s = s := by
  simp [LoopStep, ht]

theorem LoopStep_finished (now : Int) (tid : Nat) (s : Instrumentor)
    (ht : s.mythread = Thread.finished) : LoopStep now tid s = s := by
  simp [LoopStep, ht]

theorem LoopStep_empty (now : Int) (tid : Nat) (s : Instrumentor)
    (ht : s.mythread = Thread.empty) : LoopStep now tid s = s := by
  simp [LoopStep, ht]

theorem LoopStep_CurrentSession (now : Int) (tid : Nat) (s : Instrumentor) :
    (LoopStep now tid s).CurrentSession = s.CurrentSession := by
  unfold LoopStep LoopBody waitPredicate
  cases s.mythread <;> cases s.Queue <;> cases s.endSession <;>
    simp [WriteHeader, WriteFooter, WriteProfile]

theorem LoopStep_joinable (now : Int) (tid : Nat) (s : Instrumentor) :
    (LoopStep now tid s).mythread.joinable = s.mythread.joinable := by
  unfold LoopStep LoopBody waitPredicate
  cases h : s.mythread <;> cases s.Queue <;> cases s.endSession <;>
    simp [WriteHeader, WriteFooter, WriteProfile, Thread.joinable, h]

theorem LoopStep_endSession (now : Int) (tid : Nat) (s : Instrumentor) :
    (LoopStep now tid s).endSession = s.endSession := by
  unfold LoopStep LoopBody waitPredicate
  cases s.mythread <;> cases s.Queue <;> cases he : s.endSession <;>
    simp [WriteHeader, WriteFooter, WriteProfile, he]

theorem LoopStep_Timepoint (now : Int) (tid : Nat) (s : Instrumentor) :
    (LoopStep now tid s).EndSessionStartTimepoint = s.EndSessionStartTimepoint := by
  unfold LoopStep LoopBody waitPredicate
  cases s.mythread <;> cases s.Queue <;> cases s.endSession <;>
    simp [WriteHeader, WriteFooter, WriteProfile]

theorem LoopStep_Queue_length (now : Int) (tid : Nat) (s : Instrumentor) :
    (LoopStep now tid s).Queue.length ≤ s.Queue.length := by
  unfold LoopStep LoopBody waitPredicate
  cases s.mythread <;> cases hq : s.Queue <;> cases s.endSession <;>
    simp [WriteHeader, WriteFooter, WriteProfile, hq]

theorem notify_one_eq (s : Instrumentor) :
    notify_one s =
      { s with mythread := if s.mythread = Thread.parked then Thread.running else s.mythread } := by
  unfold notify_one
  cases h : s.mythread <;> simp [h] <;> rw [← h]

theorem join_finished (now : Int) (tid : Nat) (fuel : Nat) (s : Instrumentor)
    (h : s.mythread = Thread.finished) : join now tid fuel s = some s := by
  cases fuel <;> simp [join, h]

theorem join_parked (now : Int) (tid : Nat) (fuel : Nat) (s : Instrumentor)
    (h : s.mythread = Thread.parked) : join now tid fuel s = none := by
  induction fuel with
  | zero => simp [join, h]
  | succ n ih => rw [join, if_neg (by simp [h]), LoopStep_parked now tid s h]; exact ih

theorem join_parking (now : Int) (tid : Nat) (fuel : Nat) (s : Instrumentor)
    (h : s.mythread = Thread.parking) : join now tid fuel s = none := by
  cases fuel with
  | zero => simp [join, h]
  | succ n =>
    rw [join, if_neg (by simp [h]), LoopStep_parking now tid s h]
    exact join_parked now tid n _ rfl

theorem join_result (now : Int) (tid : Nat) :
    ∀ (fuel : Nat) (s s1 : Instrumentor), join now tid fuel s = some s1 →
      s1.mythread = Thread.finished ∧ ∃ n : Nat, s1 = (LoopStep now tid)^[n] s := by
  intro fuel
  induction fuel with
  | zero =>
    intro s s1 h
    by_cases hf : s.mythread = Thread.finished
    · rw [join, if_pos hf] at h
      cases h
      exact ⟨hf, 0, rfl⟩
    · rw [join, if_neg hf] at h
      cases h
  | succ n ih =>
    intro s s1 h
    by_cases hf : s.mythread = Thread.finished
    · rw [join, if_pos hf] at h
      cases h
      exact ⟨hf, 0, rfl⟩
    · rw [join, if_neg hf] at h
      obtain ⟨h1, m, h2⟩ := ih _ _ h
      exact ⟨h1, m + 1, by rw [h2, Function.iterate_succ_apply]⟩

/-! ## Lemmas on sessions -/

theorem BeginSession_returns (opens : Bool) (name filepath : String) (s0 : Instrumentor)
    (hin : Spec.Inactive s0) :
    BeginSession opens name filepath s0 = Outcome.returned
      { s0 with
        ProfileCount := 0
        OStream := s0.OStream.openPath opens filepath
        CurrentSession := name
        mythread := Thread.spawned } := by
  obtain ⟨h1, h2⟩ := hin
  simp [BeginSession, h1, h2]

theorem openPath_opened (opens : Bool) (o : OFStream) (filepath : String)
    (h : (o.openPath opens filepath).isOpen = true) :
    o.openPath opens filepath = { isOpen := true, path := filepath, text := "" } := by
  unfold OFStream.openPath at h ⊢
  by_cases hc : o.isOpen = false ∧ opens = true ∧ filepath ≠ ""
  · rw [if_pos hc]
  · rw [if_neg hc] at h
    simp at h

theorem inv_begin (opens : Bool) (name filepath : String) (s0 : Instrumentor)
    (hopened : (s0.OStream.openPath opens filepath).isOpen = true) :
    SessionInv name filepath s0.Queue
      { s0 with
        ProfileCount := 0
        OStream := s0.OStream.openPath opens filepath
        CurrentSession := name
        mythread := Thread.spawned } := by
  rw [openPath_opened opens _ _ hopened]
  exact ⟨rfl, rfl, [], rfl, Or.inl ⟨rfl, rfl, rfl, rfl, rfl⟩⟩

theorem inv_notify (name filepath : String) (all : List ProfileResult)
    (s : Instrumentor) (h : SessionInv name filepath all s) :
    SessionInv name filepath all (notify_one s) := by
  obtain ⟨hcs, hp, w, hw, ht⟩ := h
  rw [notify_one_eq]
  refine ⟨hcs, hp, w, hw, ?_⟩
  rcases ht with ⟨ht, h2⟩ | ⟨ht, h2⟩ | ⟨ht, h2⟩
  · exact Or.inl ⟨by simp [ht], h2⟩
  · refine Or.inr (Or.inl ⟨?_, h2⟩)
    by_cases hpk : s.mythread = Thread.parked
    · simp [hpk, Thread.looping]
    · simpa [hpk] using ht
  · exact Or.inr (Or.inr ⟨by simp [ht], h2⟩)

theorem inv_push (name filepath : String) (all : List ProfileResult)
    (s : Instrumentor) (pr : ProfileResult) (h : SessionInv name filepath all s)
    (hn : name ≠ "") :
    AddProfileResult pr s = Outcome.returned (notify_one { s with Queue := s.Queue ++ [pr] }) ∧
      SessionInv name filepath (all ++ [pr]) (notify_one { s with Queue := s.Queue ++ [pr] }) := by
  obtain ⟨hcs, hp, w, hw, ht⟩ := h
  constructor
  · simp [AddProfileResult, hcs, hn]
  · exact inv_notify _ _ _ _ ⟨hcs, hp, w, by simp [← hw], ht⟩

theorem inv_consume (name filepath : String) (all : List ProfileResult)
    (s : Instrumentor) (now : Int) (tid : Nat) (h : SessionInv name filepath all s) :
    SessionInv name filepath all (LoopStep now tid s) := by
  obtain ⟨hcs, hp, w, hw, ht⟩ := h
  rcases ht with ⟨ht, ho, hw0, htx, hc⟩ | ⟨ht, ho, htx, hc⟩ | ⟨ht, ho, hfin⟩
  · rw [LoopStep_spawned now tid s ht]
    subst hw0
    refine ⟨hcs, ?_, [], hw, Or.inr (Or.inl ⟨rfl, ?_, ?_, hc⟩)⟩
    · simp [WriteHeader, put_open, ho, hp]
    · simp [WriteHeader, put_open, ho]
    · simp [WriteHeader, put_open, ho, htx, fileSoFar_nil, Spec.header]
  · cases hth : s.mythread with
    | empty => simp [hth, Thread.looping] at ht
    | spawned => simp [hth, Thread.looping] at ht
    | finished => simp [hth, Thread.looping] at ht
    | parking =>
      rw [LoopStep_parking now tid s hth]
      exact ⟨hcs, hp, w, hw, Or.inr (Or.inl ⟨rfl, ho, htx, hc⟩)⟩
    | parked =>
      rw [LoopStep_parked now tid s hth]
      exact ⟨hcs, hp, w, hw, Or.inr (Or.inl ⟨ht, ho, htx, hc⟩)⟩
    | running =>
      cases hq : s.Queue with
      | nil =>
        cases he : s.endSession with
        | false =>
          rw [LoopStep_park now tid s hth hq he]
          exact ⟨hcs, hp, w, hw, Or.inr (Or.inl ⟨rfl, ho, htx, hc⟩)⟩
        | true =>
          rw [LoopStep_close now tid s hth hq he]
          refine ⟨?_, ?_, w, ?_, Or.inr (Or.inr ⟨rfl, ?_, s.EndSessionStartTimepoint, now, tid, ?_⟩)⟩
          · simpa [WriteFooter, WriteProfile] using hcs
          · simp [WriteFooter, WriteProfile_open _ _ ho, put_open, ho, OFStream.close, hp]
          · simpa [WriteFooter, WriteProfile] using hw
          · simp [OFStream.close]
          · simp only [WriteFooter, WriteProfile_open _ _ ho, put_open, ho, OFStream.close,
              traceFile_eq, fileSoFar_snoc, htx, hc, hcs, Spec.footer]
      | cons pr rest =>
        rw [LoopStep_drain now tid s pr rest hth hq, WriteProfile_open _ _ (by exact ho)]
        refine ⟨hcs, hp, w ++ [pr], ?_, Or.inr (Or.inl ⟨?_, ho, ?_, ?_⟩)⟩
        · simp [← hw, hq]
        · simp [hth, Thread.looping]
        · simp only [fileSoFar_snoc, htx, hc]
        · simp [hc]
  · rw [LoopStep_finished now tid s ht]
    exact ⟨hcs, hp, w, hw, Or.inr (Or.inr ⟨ht, ho, hfin⟩)⟩

theorem live_notify (s : Instrumentor) (h : Live s) : Live (notify_one s) := by
  obtain ⟨he, ht⟩ := h
  rw [notify_one_eq]
  refine ⟨he, ?_⟩
  by_cases hpk : s.mythread = Thread.parked
  · simp [hpk]
  · simpa [hpk] using ht

theorem live_push (s : Instrumentor) (pr : ProfileResult) (h : Live s) :
    Live (notify_one { s with Queue := s.Queue ++ [pr] }) :=
  live_notify _ h

theorem live_consume (s : Instrumentor) (now : Int) (tid : Nat) (h : Live s) :
    Live (LoopStep now tid s) := by
  obtain ⟨he, ht⟩ := h
  unfold LoopStep LoopBody waitPredicate
  cases hth : s.mythread <;> cases hq : s.Queue <;>
    simp_all [Live, WriteHeader, WriteProfile]

theorem inv_run (name filepath : String) :
    ∀ (acts : List Action) (all : List ProfileResult) (s : Instrumentor),
      SessionInv name filepath all s → (name ≠ "" ∨ pushed acts = []) →
      ∃ s1, runActions acts s = Outcome.returned s1 ∧
        SessionInv name filepath (all ++ pushed acts) s1 ∧ (Live s → Live s1) ∧
        s1.endSession = s.endSession := by
  intro acts
  induction acts with
  | nil => intro all s h _; exact ⟨s, rfl, by simpa [pushed] using h, id, rfl⟩
  | cons a rest ih =>
    intro all s h hn
    cases a with
    | push pr =>
      have hn1 : name ≠ "" := by
        rcases hn with hn | hn
        · exact hn
        · simp [pushed] at hn
      obtain ⟨h1, h2⟩ := inv_push name filepath all s pr h hn1
      obtain ⟨s1, hr, hi, hl, he⟩ := ih (all ++ [pr]) _ h2 (Or.inl hn1)
      refine ⟨s1, by simp [runActions, h1, hr], by simpa [pushed] using hi,
        fun hl0 => hl (live_push s pr hl0), ?_⟩
      rw [he, notify_one_eq]
    | consume now tid =>
      obtain ⟨s1, hr, hi, hl, he⟩ := ih all _ (inv_consume name filepath all s now tid h)
        (by simpa [pushed] using hn)
      exact ⟨s1, by simp [runActions, hr], by simpa [pushed] using hi,
        fun hl0 => hl (live_consume s now tid hl0), by rw [he, LoopStep_endSession]⟩
    | wake =>
      obtain ⟨s1, hr, hi, hl, he⟩ := ih all _ (inv_notify name filepath all s h)
        (by simpa [pushed] using hn)
      exact ⟨s1, by simp [runActions, hr], by simpa [pushed] using hi,
        fun hl0 => hl (live_notify s hl0), by rw [he, notify_one_eq]⟩

theorem inv_joinable (name filepath : String) (all : List ProfileResult) (s : Instrumentor)
    (h : SessionInv name filepath all s) : s.mythread.joinable = true := by
  obtain ⟨_, _, w, _, ht⟩ := h
  rcases ht with ⟨ht, _⟩ | ⟨ht, _⟩ | ⟨ht, _⟩
  · simp [ht, Thread.joinable]
  · cases hth : s.mythread <;> simp_all [Thread.looping, Thread.joinable]
  · simp [ht, Thread.joinable]

theorem inv_iterate (name filepath : String) (all : List ProfileResult) (now : Int) (tid : Nat) :
    ∀ (n : Nat) (s : Instrumentor), SessionInv name filepath all s →
      SessionInv name filepath all ((LoopStep now tid)^[n] s) := by
  intro n
  induction n with
  | zero => intro s h; exact h
  | succ n ih =>
    intro s h
    rw [Function.iterate_succ_apply]
    exact ih _ (inv_consume name filepath all s now tid h)

theorem drain_consume (name filepath : String) (now nowEnd : Int) (tid : Nat)
    (all : List ProfileResult) (s : Instrumentor)
    (h : DrainInv name filepath now nowEnd tid all s) :
    DrainInv name filepath now nowEnd tid all (LoopStep nowEnd tid s) := by
  obtain ⟨hi, he, htp, hfin⟩ := h
  refine ⟨inv_consume name filepath all s nowEnd tid hi, by rw [LoopStep_endSession, he],
    by rw [LoopStep_Timepoint, htp], ?_⟩
  intro hf
  cases hth : s.mythread with
  | finished =>
    rw [LoopStep_finished nowEnd tid s hth]
    exact hfin hth
  | empty => rw [LoopStep_empty nowEnd tid s hth] at hf; simp [hth] at hf
  | spawned => rw [LoopStep_spawned nowEnd tid s hth] at hf; simp at hf
  | parking => rw [LoopStep_parking nowEnd tid s hth] at hf; simp at hf
  | parked => rw [LoopStep_parked nowEnd tid s hth] at hf; simp [hth] at hf
  | running =>
    cases hq : s.Queue with
    | cons pr rest =>
      rw [LoopStep_drain nowEnd tid s pr rest hth hq] at hf
      simp [WriteProfile, hth] at hf
    | nil =>
      obtain ⟨hcs, hp, w, hw, ht⟩ := hi
      rcases ht with ⟨ht, _⟩ | ⟨_, ho, htx, hc⟩ | ⟨ht, _⟩
      · simp [hth] at ht
      · rw [LoopStep_close nowEnd tid s hth hq he]
        have hwa : w = all := by simpa [hq] using hw
        subst hwa
        refine ⟨?_, ?_, ?_⟩
        · simpa [WriteFooter, WriteProfile] using hq
        · simp [WriteFooter, WriteProfile, hc]
        · simp only [WriteFooter, WriteProfile_open _ _ ho, put_open, ho, OFStream.close,
            traceFile_eq, fileSoFar_snoc, htx, hc, hcs, htp, Spec.footer]
      · simp [hth] at ht

theorem drain_notify (name filepath : String) (now nowEnd : Int) (tid : Nat)
    (all : List ProfileResult) (s : Instrumentor)
    (h : DrainInv name filepath now nowEnd tid all s) :
    DrainInv name filepath now nowEnd tid all (notify_one s) := by
  obtain ⟨hi, he, htp, hfin⟩ := h
  refine ⟨inv_notify name filepath all s hi, by rw [notify_one_eq]; exact he,
    by rw [notify_one_eq]; exact htp, ?_⟩
  rw [notify_one_eq]
  intro hf
  by_cases hpk : s.mythread = Thread.parked
  · simp [hpk] at hf
  · simp only [hpk, if_false] at hf
    exact hfin hf

theorem drain_iterate (name filepath : String) (now nowEnd : Int) (tid : Nat)
    (all : List ProfileResult) :
    ∀ (n : Nat) (s : Instrumentor), DrainInv name filepath now nowEnd tid all s →
      DrainInv name filepath now nowEnd tid all ((LoopStep nowEnd tid)^[n] s) := by
  intro n
  induction n with
  | zero => intro s h; exact h
  | succ n ih =>
    intro s h
    rw [Function.iterate_succ_apply]
    exact ih _ (drain_consume name filepath now nowEnd tid all s h)

theorem drain_begin (name filepath : String) (now nowEnd : Int) (tid : Nat)
    (all : List ProfileResult) (s : Instrumentor)
    (hi : SessionInv name filepath all s) (hl : s.mythread ≠ Thread.finished) :
    DrainInv name filepath now nowEnd tid all
      { s with EndSessionStartTimepoint := now, endSession := true } := by
  refine ⟨?_, rfl, rfl, fun hf => absurd hf hl⟩
  obtain ⟨hcs, hp, w, hw, ht⟩ := hi
  exact ⟨hcs, hp, w, hw, ht⟩

theorem inv_request (name filepath : String) (all : List ProfileResult) (now : Int)
    (s : Instrumentor) (hi : SessionInv name filepath all s) :
    SessionInv name filepath all
      { s with EndSessionStartTimepoint := now, endSession := true } := by
  obtain ⟨hcs, hp, w, hw, ht⟩ := hi
  exact ⟨hcs, hp, w, hw, ht⟩

theorem EndSession_joinable (now nowEnd : Int) (tid gap fuel : Nat) (s : Instrumentor)
    (hj : s.mythread.joinable = true) :
    EndSession now nowEnd tid gap fuel s =
      (join nowEnd tid fuel (notify_one ((LoopStep nowEnd tid)^[gap]
        { s with EndSessionStartTimepoint := now, endSession := true }))).map
        (fun s3 => { s3 with mythread := Thread.empty, CurrentSession := "" }) := by
  unfold EndSession
  simp only [hj, if_true]
  cases join nowEnd tid fuel (notify_one ((LoopStep nowEnd tid)^[gap]
    { s with EndSessionStartTimepoint := now, endSession := true })) <;> rfl

theorem EndSession_safe (name filepath : String) (all : List ProfileResult)
    (s s2 : Instrumentor) (now nowEnd : Int) (tid gap fuel : Nat)
    (hi : SessionInv name filepath all s) (hl : s.mythread ≠ Thread.finished)
    (h : EndSession now nowEnd tid gap fuel s = some s2) :
    s2 =
      { CurrentSession := ""
        OStream :=
          { isOpen := false, path := filepath
            text := Spec.traceFile (all ++ [Spec.closingRecord name now nowEnd tid]) }
        ProfileCount := all.length + 1
        Queue := []
        mythread := Thread.empty
        endSession := true
        EndSessionStartTimepoint := now } := by
  rw [EndSession_joinable _ _ _ _ _ _ (inv_joinable _ _ _ _ hi)] at h
  cases hj : join nowEnd tid fuel (notify_one ((LoopStep nowEnd tid)^[gap]
      { s with EndSessionStartTimepoint := now, endSession := true })) with
  | none => rw [hj] at h; cases h
  | some s3 =>
    rw [hj] at h
    simp only [Option.map_some', Option.some.injEq] at h
    obtain ⟨hfin, n, hn⟩ := join_result nowEnd tid fuel _ _ hj
    have hd : DrainInv name filepath now nowEnd tid all s3 := by
      rw [hn]
      exact drain_iterate _ _ _ _ _ _ n _ (drain_notify _ _ _ _ _ _ _
        (drain_iterate _ _ _ _ _ _ gap _ (drain_begin _ _ now nowEnd tid _ s hi hl)))
    obtain ⟨⟨_, hp, w, _, ht⟩, he, htp, hf⟩ := hd
    obtain ⟨hq, hc, htx⟩ := hf hfin
    have ho : s3.OStream.isOpen = false := by
      rcases ht with ⟨ht, _⟩ | ⟨ht, _⟩ | ⟨_, ho, _⟩
      · simp [hfin] at ht
      · simp [hfin, Thread.looping] at ht
      · exact ho
    subst h
    obtain ⟨cs, ⟨op, pa, tx⟩, pc, qu, th, es, tp0⟩ := s3
    simp only at hp he htp hq hc htx ho
    subst hp he htp hq hc htx ho
    rfl

theorem EndSession_any (name filepath : String) (all : List ProfileResult)
    (s s2 : Instrumentor) (now nowEnd : Int) (tid gap fuel : Nat)
    (hi : SessionInv name filepath all s)
    (h : EndSession now nowEnd tid gap fuel s = some s2) :
    ∃ (w : List ProfileResult) (tp nw : Int) (td : Nat),
      w ++ s2.Queue = all ∧
      s2.OStream = OFStream.mk false filepath
        (Spec.traceFile (w ++ [Spec.closingRecord name tp nw td])) := by
  rw [EndSession_joinable _ _ _ _ _ _ (inv_joinable _ _ _ _ hi)] at h
  cases hj : join nowEnd tid fuel (notify_one ((LoopStep nowEnd tid)^[gap]
      { s with EndSessionStartTimepoint := now, endSession := true })) with
  | none => rw [hj] at h; cases h
  | some s3 =>
    rw [hj] at h
    simp only [Option.map_some', Option.some.injEq] at h
    obtain ⟨hfin, n, hn⟩ := join_result nowEnd tid fuel _ _ hj
    have hd : SessionInv name filepath all s3 := by
      rw [hn]
      exact inv_iterate _ _ _ _ _ n _ (inv_notify _ _ _ _
        (inv_iterate _ _ _ _ _ gap _ (inv_request _ _ _ now s hi)))
    obtain ⟨_, hp, w, hw, ht⟩ := hd
    rcases ht with ⟨ht, _⟩ | ⟨ht, _⟩ | ⟨_, ho, tp, nw, td, htx⟩
    · simp [hfin] at ht
    · simp [hfin, Thread.looping] at ht
    · subst h
      refine ⟨w, tp, nw, td, hw, ?_⟩
      obtain ⟨cs, ⟨op, pa, tx⟩, pc, qu, th, es, tp0⟩ := s3
      simp only at hp ho htx
      subst hp ho htx
      rfl

theorem join_live_running (now : Int) (tid : Nat) :
    ∀ (q : List ProfileResult) (s : Instrumentor) (fuel : Nat),
      s.mythread = Thread.running → s.endSession = true → s.Queue = q →
      q.length + 1 ≤ fuel → ∃ s3, join now tid fuel s = some s3 := by
  intro q
  induction q with
  | nil =>
    intro s fuel ht he hq hf
    obtain ⟨f, rfl⟩ : ∃ f, fuel = f + 1 := ⟨fuel - 1, by omega⟩
    rw [join, if_neg (by simp [ht]), LoopStep_close now tid s ht hq he]
    exact ⟨_, join_finished _ _ _ _ rfl⟩
  | cons pr rest ih =>
    intro s fuel ht he hq hf
    obtain ⟨f, rfl⟩ : ∃ f, fuel = f + 1 := ⟨fuel - 1, by omega⟩
    rw [join, if_neg (by simp [ht]), LoopStep_drain now tid s pr rest ht hq]
    exact ih _ f (by simpa [WriteProfile] using ht) (by simpa [WriteProfile] using he)
      (by simp [WriteProfile]) (by simp at hf; omega)

theorem join_live (now : Int) (tid : Nat) (s : Instrumentor) (fuel : Nat)
    (he : s.endSession = true)
    (ht : s.mythread = Thread.spawned ∨ s.mythread = Thread.running ∨
      s.mythread = Thread.finished)
    (hf : s.Queue.length + 2 ≤ fuel) : ∃ s3, join now tid fuel s = some s3 := by
  rcases ht with ht | ht | ht
  · obtain ⟨f, rfl⟩ : ∃ f, fuel = f + 1 := ⟨fuel - 1, by omega⟩
    rw [join, if_neg (by simp [ht]), LoopStep_spawned now tid s ht]
    exact join_live_running now tid s.Queue _ f rfl (by simpa [WriteHeader] using he)
      (by simp [WriteHeader]) (by omega)
  · exact join_live_running now tid s.Queue s fuel ht he rfl (by omega)
  · exact ⟨s, join_finished _ _ _ _ ht⟩

/-- With the flag set, a consumer that is not about to block never gets there. -/
theorem LoopStep_not_parking (now : Int) (tid : Nat) (s : Instrumentor)
    (he : s.endSession = true) (ht : s.mythread ≠ Thread.parking) :
    (LoopStep now tid s).mythread ≠ Thread.parking := by
  unfold LoopStep LoopBody waitPredicate
  cases hth : s.mythread <;> cases hq : s.Queue <;>
    simp_all [WriteHeader, WriteFooter, WriteProfile]

theorem iterate_not_parking (now : Int) (tid : Nat) :
    ∀ (n : Nat) (s : Instrumentor), s.endSession = true →
      (s.mythread ≠ Thread.parking ∨ 0 < n) →
      ((LoopStep now tid)^[n] s).mythread ≠ Thread.parking := by
  intro n
  induction n with
  | zero =>
    intro s _ h
    rcases h with h | h
    · exact h
    · exact absurd h (by decide)
  | succ n ih =>
    intro s he h
    rw [Function.iterate_succ_apply]
    refine ih _ (by rw [LoopStep_endSession, he]) (Or.inl ?_)
    by_cases hp : s.mythread = Thread.parking
    · rw [LoopStep_parking now tid s hp]
      simp
    · exact LoopStep_not_parking now tid s he hp

theorem iterate_facts (now : Int) (tid : Nat) :
    ∀ (n : Nat) (s : Instrumentor),
      ((LoopStep now tid)^[n] s).endSession = s.endSession ∧
      ((LoopStep now tid)^[n] s).mythread.joinable = s.mythread.joinable ∧
      ((LoopStep now tid)^[n] s).Queue.length ≤ s.Queue.length := by
  intro n
  induction n with
  | zero => intro s; exact ⟨rfl, rfl, Nat.le_refl _⟩
  | succ n ih =>
    intro s
    rw [Function.iterate_succ_apply]
    obtain ⟨h1, h2, h3⟩ := ih (LoopStep now tid s)
    exact ⟨by rw [h1, LoopStep_endSession], by rw [h2, LoopStep_joinable],
      Nat.le_trans h3 (LoopStep_Queue_length now tid s)⟩

theorem EndSession_returns (now nowEnd : Int) (tid gap fuel : Nat) (s : Instrumentor)
    (hj : s.mythread.joinable = true)
    (hw : s.mythread ≠ Thread.parking ∨ 0 < gap)
    (hf : s.Queue.length + 2 ≤ fuel) :
    ∃ s2, EndSession now nowEnd tid gap fuel s = some s2 := by
  rw [EndSession_joinable _ _ _ _ _ _ hj]
  have hnp := iterate_not_parking nowEnd tid gap
    { s with EndSessionStartTimepoint := now, endSession := true } rfl hw
  obtain ⟨h1, h2, h3⟩ := iterate_facts nowEnd tid gap
    { s with EndSessionStartTimepoint := now, endSession := true }
  generalize (LoopStep nowEnd tid)^[gap]
    { s with EndSessionStartTimepoint := now, endSession := true } = t at hnp h1 h2 h3
  simp only at h1 h2 h3
  have hlive : ∃ s3, join nowEnd tid fuel (notify_one t) = some s3 := by
    apply join_live
    · rw [notify_one_eq]; exact h1
    · rw [notify_one_eq]
      cases hth : t.mythread <;> simp_all [Thread.joinable]
    · rw [notify_one_eq]
      simp only
      omega
  obtain ⟨s3, h⟩ := hlive
  exact ⟨_, by rw [h]; rfl⟩

theorem EndSession_blocks (now nowEnd : Int) (tid fuel : Nat) (s : Instrumentor)
    (ht : s.mythread = Thread.parking) :
    EndSession now nowEnd tid 0 fuel s = none := by
  rw [EndSession_joinable _ _ _ _ _ _ (by simp [ht, Thread.joinable])]
  simp only [Function.iterate_zero, id_eq]
  rw [notify_one_eq]
  simp only [ht]
  rw [join_parking nowEnd tid fuel _ (by simp)]
  rfl

theorem BeginSession_returned (opens : Bool) (name filepath : String) (s0 sb : Instrumentor)
    (h : BeginSession opens name filepath s0 = Outcome.returned sb) :
    Spec.Inactive s0 ∧
      sb = { s0 with
        ProfileCount := 0
        OStream := s0.OStream.openPath opens filepath
        CurrentSession := name
        mythread := Thread.spawned } := by
  unfold BeginSession at h
  by_cases hc : s0.CurrentSession ≠ ""
  · rw [if_pos hc] at h
    cases h
  · rw [if_neg hc] at h
    have hc1 : s0.CurrentSession = "" := not_not.mp hc
    by_cases hj : s0.mythread.joinable = true
    · simp only [hj, if_true] at h
      cases h
    · simp only [hj] at h
      simp only [Bool.false_eq_true, if_false, Outcome.returned.injEq] at h
      exact ⟨⟨hc1, by simpa using hj⟩, h.symm⟩

theorem run_returned_name (name : String) :
    ∀ (acts : List Action) (s s1 : Instrumentor),
      s.CurrentSession = name → runActions acts s = Outcome.returned s1 →
      name ≠ "" ∨ pushed acts = [] := by
  intro acts
  induction acts with
  | nil => intro s s1 _ _; exact Or.inr rfl
  | cons a rest ih =>
    intro s s1 hn h
    cases a with
    | push pr =>
      by_cases he : s.CurrentSession = ""
      · simp [runActions, AddProfileResult, he] at h
      · exact Or.inl (by rw [← hn]; exact he)
    | consume now tid =>
      simp only [runActions] at h
      simpa [pushed] using ih _ s1 (by rw [LoopStep_CurrentSession, hn]) h
    | wake =>
      simp only [runActions] at h
      simpa [pushed] using ih _ s1 (by rw [notify_one_eq]; exact hn) h

/-- A session whose file was opened: at the end of the schedule the invariant
holds, and the session is live when the flag was clear at the start. -/
theorem session_inv (opens : Bool) (name filepath : String) (acts : List Action)
    (s0 sb s1 : Instrumentor)
    (hopened : (s0.OStream.openPath opens filepath).isOpen = true)
    (hb : BeginSession opens name filepath s0 = Outcome.returned sb)
    (hr : runActions acts sb = Outcome.returned s1) :
    SessionInv name filepath (s0.Queue ++ pushed acts) s1 ∧
      (s0.endSession = false → Live s1) := by
  obtain ⟨_, hsb⟩ := BeginSession_returned opens name filepath s0 sb hb
  subst hsb
  have hname := run_returned_name name acts _ s1 rfl hr
  obtain ⟨s1', hr', hi, hl, _⟩ := inv_run name filepath acts s0.Queue _
    (inv_begin opens name filepath s0 hopened) hname
  rw [hr] at hr'
  cases hr'
  exact ⟨hi, fun hflag => hl ⟨hflag, by simp⟩⟩

theorem runSession_some (opens : Bool) (name filepath : String) (acts : List Action)
    (now nowEnd : Int) (tid gap fuel : Nat) (s0 s2 : Instrumentor)
    (h : runSession opens name filepath acts now nowEnd tid gap fuel s0 = some s2) :
    ∃ sb s1 : Instrumentor,
      BeginSession opens name filepath s0 = Outcome.returned sb ∧
      runActions acts sb = Outcome.returned s1 ∧
      EndSession now nowEnd tid gap fuel s1 = some s2 := by
  unfold runSession at h
  cases hb : BeginSession opens name filepath s0 with
  | exited c t => rw [hb] at h; cases h
  | aborted t => rw [hb] at h; cases h
  | returned sb =>
    rw [hb] at h
    simp only at h
    cases hr : runActions acts sb with
    | exited c t => rw [hr] at h; cases h
    | aborted t => rw [hr] at h; cases h
    | returned s1 =>
      rw [hr] at h
      exact ⟨sb, s1, rfl, hr, h⟩

theorem runSession_of (opens : Bool) (name filepath : String) (acts : List Action)
    (now nowEnd : Int) (tid gap fuel : Nat) (s0 sb s1 : Instrumentor)
    (hb : BeginSession opens name filepath s0 = Outcome.returned sb)
    (hr : runActions acts sb = Outcome.returned s1) :
    runSession opens name filepath acts now nowEnd tid gap fuel s0 =
      EndSession now nowEnd tid gap fuel s1 := by
  simp only [runSession, hb, hr]

theorem run_no_push :
    ∀ (acts : List Action) (s : Instrumentor), pushed acts = [] →
      ∃ s1, runActions acts s = Outcome.returned s1 := by
  intro acts
  induction acts with
  | nil => intro s _; exact ⟨s, rfl⟩
  | cons a rest ih =>
    intro s h
    cases a with
    | push pr => simp [pushed] at h
    | consume now tid =>
      obtain ⟨s1, hr⟩ := ih (LoopStep now tid s) (by simpa [pushed] using h)
      exact ⟨s1, by simp [runActions, hr]⟩
    | wake =>
      obtain ⟨s1, hr⟩ := ih (notify_one s) (by simpa [pushed] using h)
      exact ⟨s1, by simp [runActions, hr]⟩

theorem run_active (name : String) (hname : name ≠ "") :
    ∀ (acts : List Action) (s : Instrumentor),
      s.CurrentSession = name → s.mythread.joinable = true →
      ∃ s1, runActions acts s = Outcome.returned s1 ∧ s1.CurrentSession = name ∧
        s1.mythread.joinable = true := by
  intro acts
  induction acts with
  | nil => intro s h1 h2; exact ⟨s, rfl, h1, h2⟩
  | cons a rest ih =>
    intro s h1 h2
    have hne : s.CurrentSession ≠ "" := by rw [h1]; exact hname
    cases a with
    | push pr =>
      obtain ⟨s1, hr, hc, hj⟩ := ih (notify_one { s with Queue := s.Queue ++ [pr] })
        (by rw [notify_one_eq]; exact h1)
        (by rw [notify_one_eq]; cases hth : s.mythread <;> simp_all [Thread.joinable])
      exact ⟨s1, by simp only [runActions, AddProfileResult, if_neg hne, hr], hc, hj⟩
    | consume now tid =>
      obtain ⟨s1, hr, hc, hj⟩ := ih (LoopStep now tid s)
        (by rw [LoopStep_CurrentSession, h1]) (by rw [LoopStep_joinable, h2])
      exact ⟨s1, by simp [runActions, hr], hc, hj⟩
    | wake =>
      obtain ⟨s1, hr, hc, hj⟩ := ih (notify_one s)
        (by rw [notify_one_eq]; exact h1)
        (by rw [notify_one_eq]; cases hth : s.mythread <;> simp_all [Thread.joinable])
      exact ⟨s1, by simp [runActions, hr], hc, hj⟩

/-- A session begun from the inactive state, with a non-empty name or no push,
gets through `BeginSession` and its schedule. -/
theorem session_starts (opens : Bool) (name filepath : String) (acts : List Action)
    (s0 : Instrumentor) (hin : Spec.Inactive s0) (hname : name ≠ "" ∨ pushed acts = []) :
    ∃ sb s1 : Instrumentor,
      BeginSession opens name filepath s0 = Outcome.returned sb ∧
      runActions acts sb = Outcome.returned s1 := by
  have hb := BeginSession_returns opens name filepath s0 hin
  rcases hname with hn | hn
  · obtain ⟨s1, hr, _, _⟩ := run_active name hn acts
      { s0 with
        ProfileCount := 0
        OStream := s0.OStream.openPath opens filepath
        CurrentSession := name
        mythread := Thread.spawned } rfl rfl
    exact ⟨_, s1, hb, hr⟩
  · obtain ⟨s1, hr⟩ := run_no_push acts
      { s0 with
        ProfileCount := 0
        OStream := s0.OStream.openPath opens filepath
        CurrentSession := name
        mythread := Thread.spawned } hn
    exact ⟨_, s1, hb, hr⟩

/-- A session that has got through its schedule comes back from `EndSession`,
given a join long enough for the queue, unless the notification finds the
consumer between a failed evaluation of the wait predicate and the block. -/
theorem session_returns (opens : Bool) (name filepath : String) (acts : List Action)
    (now nowEnd : Int) (tid gap fuel : Nat) (s0 sb s1 : Instrumentor)
    (hb : BeginSession opens name filepath s0 = Outcome.returned sb)
    (hr : runActions acts sb = Outcome.returned s1)
    (hw : s1.mythread ≠ Thread.parking ∨ 0 < gap)
    (hf : s0.Queue.length + (pushed acts).length + 2 ≤ fuel) :
    ∃ s2, runSession opens name filepath acts now nowEnd tid gap fuel s0 = some s2 := by
  rw [runSession_of opens name filepath acts now nowEnd tid gap fuel s0 sb s1 hb hr]
  obtain ⟨_, hsb⟩ := BeginSession_returned opens name filepath s0 sb hb
  subst hsb
  have hfacts : ∀ (acts : List Action) (s t : Instrumentor),
      runActions acts s = Outcome.returned t → s.mythread.joinable = true →
      t.mythread.joinable = true ∧ t.Queue.length ≤ s.Queue.length + (pushed acts).length := by
    intro acts
    induction acts with
    | nil =>
      intro s t h hj
      simp only [runActions, Outcome.returned.injEq] at h
      subst h
      exact ⟨hj, by simp [pushed]⟩
    | cons a rest ih =>
      intro s t h hj
      cases a with
      | push pr =>
        by_cases he : s.CurrentSession = ""
        · simp [runActions, AddProfileResult, he] at h
        · simp only [runActions, AddProfileResult, if_neg he] at h
          obtain ⟨h1, h2⟩ := ih _ t h
            (by rw [notify_one_eq]; cases hth : s.mythread <;> simp_all [Thread.joinable])
          refine ⟨h1, ?_⟩
          rw [notify_one_eq] at h2
          simp only [List.length_append, List.length_singleton, pushed, List.length_cons,
            List.length_nil] at h2 ⊢
          omega
      | consume now tid =>
        simp only [runActions] at h
        obtain ⟨h1, h2⟩ := ih _ t h (by rw [LoopStep_joinable, hj])
        have := LoopStep_Queue_length now tid s
        exact ⟨h1, by simp only [pushed]; omega⟩
      | wake =>
        simp only [runActions] at h
        obtain ⟨h1, h2⟩ := ih _ t h
          (by rw [notify_one_eq]; cases hth : s.mythread <;> simp_all [Thread.joinable])
        rw [notify_one_eq] at h2
        exact ⟨h1, by simpa [pushed] using h2⟩
  obtain ⟨hj, hq⟩ := hfacts acts _ s1 hr rfl
  simp only at hq
  exact EndSession_returns now nowEnd tid gap fuel s1 hj hw (by omega)

/-- What a pass through the loop body does to the queue and to an open sink: it
returns exactly when the flag is set and the queue is empty, having appended
the closing record and the footer and closed the sink; with a record queued it
removes the front record and appends that record and nothing else. -/
theorem LoopBody_pass (now : Int) (tid : Nat) (s : Instrumentor)
    (hopen : s.OStream.isOpen = true) :
    ((∃ t, LoopBody now tid s = LoopResult.done t) ↔
        (s.endSession = true ∧ s.Queue = [])) ∧
      (s.endSession = true → s.Queue = [] →
        ∃ t, LoopBody now tid s = LoopResult.done t ∧ t.OStream.isOpen = false ∧
          t.OStream.text = s.OStream.text ++ (if s.ProfileCount > 0 then "," else "") ++
            Spec.recordJson
              (Spec.closingRecord s.CurrentSession s.EndSessionStartTimepoint now tid) ++
            Spec.footer) ∧
      (∀ (pr : ProfileResult) (rest : List ProfileResult), s.Queue = pr :: rest →
        ∃ t, LoopBody now tid s = LoopResult.again t ∧ t.Queue = rest ∧
          t.OStream.isOpen = true ∧
          t.OStream.text = s.OStream.text ++ (if s.ProfileCount > 0 then "," else "") ++
            Spec.recordJson pr) := by
  refine ⟨?_, ?_, ?_⟩
  · unfold LoopBody
    cases hq : s.Queue <;> cases he : s.endSession <;> simp
  · intro he hq
    refine ⟨{ (WriteFooter (WriteProfile
          (Spec.closingRecord s.CurrentSession s.EndSessionStartTimepoint now tid) s)) with
        OStream := (WriteFooter (WriteProfile
          (Spec.closingRecord s.CurrentSession s.EndSessionStartTimepoint now tid)
            s)).OStream.close }, ?_, ?_, ?_⟩
    · simp [LoopBody, he, hq, Spec.closingRecord]
    · simp [OFStream.close]
    · simp only [WriteFooter, WriteProfile_open _ _ hopen, put_open, hopen, OFStream.close,
        Spec.footer]
  · intro pr rest hq
    refine ⟨WriteProfile pr { s with Queue := rest }, by simp [LoopBody, hq], ?_, ?_, ?_⟩
    · simp [WriteProfile]
    · rw [WriteProfile_open _ _ (by exact hopen)]
      exact hopen
    · rw [WriteProfile_open _ _ (by exact hopen)]

/-! ## Claims -/

/-- C1 as stated fails when the output file is not opened: in the session
`main` on the empty path, with two records pushed, `EndSession` returns and the
sink holds nothing, which is the file of no list of records. -/
theorem session_on_empty_path_writes_nothing :
    ∃ s2 : Instrumentor,
      runSession true "main" "" sampleActs 5000 5010 1 0 4 fresh = some s2 ∧
      s2.Queue = [] ∧ s2.OStream.text = "" ∧
      ¬ ∃ ws : List ProfileResult, s2.OStream.text = Spec.traceFile ws := by
  refine ⟨_, rfl, by decide, by decide, ?_⟩
  rintro ⟨ws, h⟩
  exact traceFile_ne_empty ws h.symm

/-- C1, amended: on a freshly constructed controller, for a session with a
non-empty name whose file `BeginSession` opened and any schedule of pushes,
consumer steps and wake-ups, whenever `EndSession` returns the queue is empty
and the sink holds the file of a list of `N + 1` records that is, up to order,
the `N` pushed records and the one closing record.  `EndSession` does return,
given a join long enough for the queue, unless its notification finds the
consumer between a failed evaluation of the wait predicate and the block. -/
theorem session_no_loss_no_duplication (opens : Bool) (name filepath : String)
    (acts : List Action) (now nowEnd : Int) (tid gap fuel : Nat) (hname : name ≠ "")
    (hopened : (fresh.OStream.openPath opens filepath).isOpen = true) :
    (∀ s2 : Instrumentor,
      runSession opens name filepath acts now nowEnd tid gap fuel fresh = some s2 →
      ∃ ws : List ProfileResult,
        s2.OStream.text = Spec.traceFile ws ∧
        s2.Queue = [] ∧
        ws.length = (pushed acts).length + 1 ∧
        List.Perm ws (Spec.closingRecord name now nowEnd tid :: pushed acts) ∧
        (∀ r : ProfileResult, List.count r ws =
          List.count r (pushed acts) +
            (if r = Spec.closingRecord name now nowEnd tid then 1 else 0))) ∧
    (∃ sb s1 : Instrumentor,
      BeginSession opens name filepath fresh = Outcome.returned sb ∧
      runActions acts sb = Outcome.returned s1 ∧
      ((s1.mythread ≠ Thread.parking ∨ 0 < gap) → (pushed acts).length + 2 ≤ fuel →
        ∃ s2, runSession opens name filepath acts now nowEnd tid gap fuel fresh = some s2)) := by
  obtain ⟨sb, s1, hb, hr⟩ :=
    session_starts opens name filepath acts fresh ⟨rfl, rfl⟩ (Or.inl hname)
  obtain ⟨hi, hl⟩ := session_inv opens name filepath acts fresh sb s1 hopened hb hr
  have hq0 : fresh.Queue ++ pushed acts = pushed acts := rfl
  rw [hq0] at hi
  constructor
  · intro s2 h
    rw [runSession_of opens name filepath acts now nowEnd tid gap fuel fresh sb s1 hb hr] at h
    have hs := EndSession_safe name filepath _ s1 s2 now nowEnd tid gap fuel hi (hl rfl).2 h
    refine ⟨pushed acts ++ [Spec.closingRecord name now nowEnd tid], ?_, ?_, ?_, ?_, ?_⟩
    · rw [hs]
    · rw [hs]
    · simp
    · exact (List.perm_append_comm).trans (List.Perm.refl _)
    · intro r
      rw [List.count_append, List.count_singleton]
      by_cases hr : r = Spec.closingRecord name now nowEnd tid
      · simp [hr]
      · have hr2 : ¬ (Spec.closingRecord name now nowEnd tid = r) := fun e => hr e.symm
        simp [hr, hr2]
  · refine ⟨sb, s1, hb, hr, ?_⟩
    intro hw hf
    exact session_returns opens name filepath acts now nowEnd tid gap fuel fresh sb s1 hb hr hw
      (by simpa [fresh] using hf)

/-- Witness of the amended C1: the sample schedule in a session named `main`
on `trace.json`; the consumer is scheduled once between the store to the flag
and the notification. -/
theorem session_no_loss_no_duplication_witness :
    ("main" : String) ≠ "" ∧
      (fresh.OStream.openPath true "trace.json").isOpen = true ∧
      ∃ (s2 : Instrumentor) (ws : List ProfileResult),
        runSession true "main" "trace.json" sampleActs 5000 5010 1 1 4 fresh = some s2 ∧
        s2.OStream.text = Spec.traceFile ws ∧
        s2.Queue = [] ∧
        ws.length = (pushed sampleActs).length + 1 ∧
        List.Perm ws (Spec.closingRecord "main" 5000 5010 1 :: pushed sampleActs) := by
  have h := session_no_loss_no_duplication true "main" "trace.json" sampleActs 5000 5010 1 1 4
    (by decide) (by decide)
  obtain ⟨hsafe, _, _, _, _, hlive⟩ := h
  obtain ⟨s2, h2⟩ := hlive (Or.inr (by decide)) (by decide)
  obtain ⟨ws, h3, h4, h5, h6, _⟩ := hsafe s2 h2
  exact ⟨by decide, by decide, s2, ws, h2, h3, h4, h5, h6⟩

/-- C2 as stated fails when the output file is not opened: in a session on a
path the file system does not open, with record `sampleA` pushed before
`sampleB`, `EndSession` returns and the file holds neither record. -/
theorem unopened_file_holds_no_record :
    ∃ s2 : Instrumentor,
      runSession false "main" "missing/trace.json" sampleActs 5000 5010 1 0 4 fresh =
        some s2 ∧
      s2.OStream.text = "" ∧
      ¬ ∃ a b c : String, s2.OStream.text =
          a ++ Spec.recordJson sampleA ++ b ++ Spec.recordJson sampleB ++ c := by
  refine ⟨_, rfl, by decide, ?_⟩
  rintro ⟨a, b, c, h⟩
  have h0 : a ++ Spec.recordJson sampleA ++ b ++ Spec.recordJson sampleB ++ c = "" := by
    rw [← h]; decide
  have hl := congrArg String.length h0
  simp only [String.length_append] at hl
  have hne : (Spec.recordJson sampleA).length ≠ 0 := by decide
  have : ("" : String).length = 0 := rfl
  omega

/-- C2, amended: in a session whose file `BeginSession` opened, after any
schedule of pushes, consumer steps and wake-ups the records the consumer has
written, followed by the queue, are the records queued at the start followed
by the pushed records in the order of their pushes, and the sink holds the
written records in that order; when the shutdown flag was clear at
`BeginSession`, the file after `EndSession` has returned holds all of them in
the order of their pushes, followed by the closing record. -/
theorem consumer_writes_in_push_order (opens : Bool) (name filepath : String)
    (acts : List Action) (s0 : Instrumentor)
    (hopened : (s0.OStream.openPath opens filepath).isOpen = true) :
    (∀ sb s1 : Instrumentor,
      BeginSession opens name filepath s0 = Outcome.returned sb →
      runActions acts sb = Outcome.returned s1 →
      ∃ w : List ProfileResult,
        w ++ s1.Queue = s0.Queue ++ pushed acts ∧
        ((w = [] ∧ s1.OStream.text = "") ∨
          s1.OStream.text = Spec.header ++ String.intercalate "," (w.map Spec.recordJson) ∨
          ∃ (tp nw : Int) (td : Nat), s1.OStream.text =
            Spec.header ++ String.intercalate ","
              ((w ++ [Spec.closingRecord name tp nw td]).map Spec.recordJson) ++
              Spec.footer)) ∧
    (∀ (now nowEnd : Int) (tid gap fuel : Nat) (s2 : Instrumentor),
      s0.endSession = false →
      runSession opens name filepath acts now nowEnd tid gap fuel s0 = some s2 →
      s2.OStream.text =
        Spec.header ++ String.intercalate ","
          ((s0.Queue ++ pushed acts ++ [Spec.closingRecord name now nowEnd tid]).map
            Spec.recordJson) ++ Spec.footer) ∧
    (Spec.Inactive s0 → (name ≠ "" ∨ pushed acts = []) →
      ∃ sb s1 : Instrumentor,
        BeginSession opens name filepath s0 = Outcome.returned sb ∧
        runActions acts sb = Outcome.returned s1 ∧
        ∀ (now nowEnd : Int) (tid gap fuel : Nat),
          (s1.mythread ≠ Thread.parking ∨ 0 < gap) →
          s0.Queue.length + (pushed acts).length + 2 ≤ fuel →
          ∃ s2, runSession opens name filepath acts now nowEnd tid gap fuel s0 = some s2) := by
  refine ⟨?_, ?_, ?_⟩
  · intro sb s1 hb hr
    obtain ⟨⟨_, _, w, hw, ht⟩, _⟩ :=
      session_inv opens name filepath acts s0 sb s1 hopened hb hr
    refine ⟨w, hw, ?_⟩
    rcases ht with ⟨_, _, hw0, htx, _⟩ | ⟨_, _, htx, _⟩ | ⟨_, _, tp, nw, td, htx⟩
    · exact Or.inl ⟨hw0, htx⟩
    · exact Or.inr (Or.inl htx)
    · exact Or.inr (Or.inr ⟨tp, nw, td, htx⟩)
  · intro now nowEnd tid gap fuel s2 hflag h
    obtain ⟨sb, s1, hb, hr, he⟩ :=
      runSession_some opens name filepath acts now nowEnd tid gap fuel s0 s2 h
    obtain ⟨hi, hl⟩ := session_inv opens name filepath acts s0 sb s1 hopened hb hr
    rw [EndSession_safe name filepath _ s1 s2 now nowEnd tid gap fuel hi (hl hflag).2 he]
    rfl
  · intro hin hname
    obtain ⟨sb, s1, hb, hr⟩ := session_starts opens name filepath acts s0 hin hname
    refine ⟨sb, s1, hb, hr, ?_⟩
    intro now nowEnd tid gap fuel hwk hf
    exact session_returns opens name filepath acts now nowEnd tid gap fuel s0 sb s1 hb hr hwk hf

/-- Witness of the amended C2: the sample schedule on the fresh controller; the
file after `EndSession` holds `sampleA`, `sampleB` and the closing record in
this order. -/
theorem consumer_writes_in_push_order_witness :
    (fresh.OStream.openPath true "trace.json").isOpen = true ∧
      ∃ s2 : Instrumentor,
        runSession true "main" "trace.json" sampleActs 5000 5010 1 1 4 fresh = some s2 ∧
        s2.OStream.text =
          Spec.header ++ String.intercalate ","
            ((fresh.Queue ++ pushed sampleActs ++ [Spec.closingRecord "main" 5000 5010 1]).map
              Spec.recordJson) ++ Spec.footer := by
  obtain ⟨_, hsafe, hlive⟩ :=
    consumer_writes_in_push_order true "main" "trace.json" sampleActs fresh (by decide)
  obtain ⟨_, _, _, _, hret⟩ := hlive ⟨rfl, rfl⟩ (Or.inl (by decide))
  obtain ⟨s2, h2⟩ := hret 5000 5010 1 1 4 (Or.inr (by decide)) (by decide)
  exact ⟨by decide, s2, h2, hsafe 5000 5010 1 1 4 s2 rfl h2⟩

/-- C3 as stated fails when the output file is not opened: a session without a
push on a path the file system does not open ends with nothing written, not
with the header, the closing record and the footer. -/
theorem unopened_file_has_no_header :
    ∃ s2 : Instrumentor,
      runSession false "main" "missing/out.json" [] 5000 5010 1 0 2 fresh = some s2 ∧
      s2.OStream.text = "" ∧
      s2.OStream.text ≠
        "\x7b\"otherData\": \x7b\x7d,\"traceEvents\":[" ++
          Spec.recordJson (Spec.closingRecord "main" 5000 5010 1) ++ "]\x7d" :=
  ⟨_, rfl, by decide, by decide⟩

/-- C3, amended: when a session whose file `BeginSession` opened has come back
from `EndSession`, the sink is closed and holds exactly the header, the
drained records and the closing record (named `EndSession ` followed by the
session name) joined by single commas, and the footer; with nothing drained
that is the header, the closing record and the footer.  When the shutdown flag
was clear at `BeginSession` the drained records are all the queued and pushed
ones.  `EndSession` does return, given a join long enough for the queue,
unless its notification finds the consumer between a failed evaluation of the
wait predicate and the block. -/
theorem trace_file_shape (opens : Bool) (name filepath : String) (acts : List Action)
    (now nowEnd : Int) (tid gap fuel : Nat) (s0 : Instrumentor)
    (hopened : (s0.OStream.openPath opens filepath).isOpen = true) :
    (∀ s2 : Instrumentor,
      runSession opens name filepath acts now nowEnd tid gap fuel s0 = some s2 →
      ∃ (drained : List ProfileResult) (tp nw : Int) (td : Nat),
        drained ++ s2.Queue = s0.Queue ++ pushed acts ∧
        s2.OStream.isOpen = false ∧
        s2.OStream.text =
          "\x7b\"otherData\": \x7b\x7d,\"traceEvents\":[" ++
            String.intercalate ","
              ((drained ++ [Spec.closingRecord name tp nw td]).map Spec.recordJson) ++
            "]\x7d" ∧
        (Spec.closingRecord name tp nw td).Name = "EndSession " ++ name ∧
        (drained = [] → s2.OStream.text =
          "\x7b\"otherData\": \x7b\x7d,\"traceEvents\":[" ++
            Spec.recordJson (Spec.closingRecord name tp nw td) ++ "]\x7d") ∧
        (s0.endSession = false →
          drained = s0.Queue ++ pushed acts ∧ s2.Queue = [] ∧
            tp = now ∧ nw = nowEnd ∧ td = tid)) ∧
    (Spec.Inactive s0 → (name ≠ "" ∨ pushed acts = []) →
      ∃ sb s1 : Instrumentor,
        BeginSession opens name filepath s0 = Outcome.returned sb ∧
        runActions acts sb = Outcome.returned s1 ∧
        ((s1.mythread ≠ Thread.parking ∨ 0 < gap) →
          s0.Queue.length + (pushed acts).length + 2 ≤ fuel →
          ∃ s2, runSession opens name filepath acts now nowEnd tid gap fuel s0 = some s2)) := by
  constructor
  · intro s2 h
    obtain ⟨sb, s1, hb, hr, he⟩ :=
      runSession_some opens name filepath acts now nowEnd tid gap fuel s0 s2 h
    obtain ⟨hi, hl⟩ := session_inv opens name filepath acts s0 sb s1 hopened hb hr
    by_cases hflag : s0.endSession = false
    · have hs := EndSession_safe name filepath _ s1 s2 now nowEnd tid gap fuel hi
        (hl hflag).2 he
      refine ⟨s0.Queue ++ pushed acts, now, nowEnd, tid, ?_, ?_, ?_, rfl, ?_, ?_⟩
      · rw [hs]; simp
      · rw [hs]
      · rw [hs]; rfl
      · intro hd
        rw [hs]
        simp only [hd, List.nil_append, Spec.traceFile, List.map_cons, List.map_nil,
          String.intercalate, String.intercalate.go]
        rfl
      · intro _
        exact ⟨rfl, by rw [hs], rfl, rfl, rfl⟩
    · obtain ⟨w, tp, nw, td, hw, hO⟩ :=
        EndSession_any name filepath _ s1 s2 now nowEnd tid gap fuel hi he
      refine ⟨w, tp, nw, td, hw, by rw [hO], by rw [hO]; rfl, rfl, ?_, ?_⟩
      · intro hd
        rw [hO]
        simp only [hd, List.nil_append, Spec.traceFile, List.map_cons, List.map_nil,
          String.intercalate, String.intercalate.go]
        rfl
      · intro hf
        exact absurd hf hflag
  · intro hin hname
    obtain ⟨sb, s1, hb, hr⟩ := session_starts opens name filepath acts s0 hin hname
    refine ⟨sb, s1, hb, hr, ?_⟩
    intro hwk hf
    exact session_returns opens name filepath acts now nowEnd tid gap fuel s0 sb s1 hb hr hwk hf

/-- Witness of the amended C3: the sample schedule, two records, in a session
named `main`; the file holds the header, the two records and the closing
record separated by single commas, and the footer. -/
theorem trace_file_shape_witness :
    (fresh.OStream.openPath true "trace.json").isOpen = true ∧
      (∃ s2 : Instrumentor,
        runSession true "main" "trace.json" sampleActs 5000 5010 1 1 4 fresh = some s2 ∧
        s2.OStream.isOpen = false ∧
        s2.OStream.text =
          "\x7b\"otherData\": \x7b\x7d,\"traceEvents\":[" ++
            String.intercalate ","
              ((fresh.Queue ++ pushed sampleActs ++
                [Spec.closingRecord "main" 5000 5010 1]).map Spec.recordJson) ++
            "]\x7d") ∧
      (runSession true "main" "trace.json" sampleActs 5000 5010 1 1 4 fresh).map
          (fun s => s.OStream.text) =
        some ("\x7b\"otherData\": \x7b\x7d,\"traceEvents\":[" ++
          "\x7b\"cat\":\"function\",\"dur\":1500,\"name\":\"load\",\"ph\":\"X\",\"pid\":0,\"tid\":7,\"ts\":1000\x7d" ++
          "," ++
          "\x7b\"cat\":\"function\",\"dur\":400,\"name\":\"He said \x27hi\x27\",\"ph\":\"X\",\"pid\":0,\"tid\":8,\"ts\":3000\x7d" ++
          "," ++
          "\x7b\"cat\":\"function\",\"dur\":10,\"name\":\"EndSession main\",\"ph\":\"X\",\"pid\":0,\"tid\":1,\"ts\":5000\x7d" ++
          "]\x7d") := by
  obtain ⟨hsafe, hlive⟩ :=
    trace_file_shape true "main" "trace.json" sampleActs 5000 5010 1 1 4 fresh (by decide)
  obtain ⟨_, _, _, _, hret⟩ := hlive ⟨rfl, rfl⟩ (Or.inl (by decide))
  obtain ⟨s2, h2⟩ := hret (Or.inr (by decide)) (by decide)
  obtain ⟨drained, tp, nw, td, _, h4, h5, _, _, h8⟩ := hsafe s2 h2
  obtain ⟨rfl, _, rfl, rfl, rfl⟩ := h8 rfl
  exact ⟨by decide, ⟨s2, h2, h4, h5⟩, by decide⟩

/-- C5: the name `WriteProfile` embeds has the length of the given name, holds a
single quote wherever the given name holds a double quote and the given
character everywhere else (backslashes and control characters included), hence
holds no double quote; the name `He said "hi"` is written as
`"name":"He said 'hi'"`. -/
theorem name_escaping (n : String) :
    (std_replace n dquote squote).length = n.length ∧
      (∀ i : Nat, (std_replace n dquote squote).data[i]? =
        (n.data[i]?).map (fun c => if c = dquote then squote else c)) ∧
      dquote ∉ (std_replace n dquote squote).data ∧
      (WriteProfile sampleB sampleOpen).OStream.text =
        "\x7b\"cat\":\"function\",\"dur\":400,\"name\":\"He said \x27hi\x27\",\"ph\":\"X\",\"pid\":0,\"tid\":8,\"ts\":3000\x7d" := by
  refine ⟨?_, ?_, ?_, by decide⟩
  · unfold std_replace String.length
    exact List.length_map _ _
  · intro i
    unfold std_replace
    exact List.getElem?_map _ _ _
  · simp only [std_replace, List.mem_map, not_exists, not_and]
    intro c _ hc
    by_cases h : c = dquote
    · rw [if_pos h] at hc
      exact absurd hc (by decide)
    · rw [if_neg h] at hc
      exact h hc

/-- C6: `AddProfileResult` reaches `exit(1)` exactly when `CurrentSession` is
empty, and then the state at exit is the state of the call: the queue, the
record count and the sink are as they were. -/
theorem AddProfileResult_without_session (pr : ProfileResult) (s : Instrumentor) :
    (AddProfileResult pr s = Outcome.exited 1 s ↔ s.CurrentSession = "") ∧
      (∀ (c : Nat) (t : Instrumentor), AddProfileResult pr s = Outcome.exited c t →
        c = 1 ∧ t = s ∧ t.Queue = s.Queue ∧ t.ProfileCount = s.ProfileCount ∧
          t.OStream = s.OStream ∧ s.CurrentSession = "") ∧
      ((∃ t, AddProfileResult pr s = Outcome.returned t) ↔ s.CurrentSession ≠ "") := by
  unfold AddProfileResult
  by_cases h : s.CurrentSession = ""
  · simp [h]
  · simp [h]

/-- C7: `EndSession` on a state with no joinable thread and no session name
returns and changes nothing but the recorded time point; after any `EndSession`
that returned, a second one likewise changes nothing but the time point. -/
theorem EndSession_idle_noop (now nowEnd : Int) (tid gap fuel : Nat) (s : Instrumentor)
    (hthread : s.mythread.joinable = false) (hname : s.CurrentSession = "") :
    EndSession now nowEnd tid gap fuel s = some { s with EndSessionStartTimepoint := now } ∧
      (∀ (t t1 : Instrumentor) (a b a2 b2 : Int) (i g f i2 g2 f2 : Nat),
        EndSession a b i g f t = some t1 →
          EndSession a2 b2 i2 g2 f2 t1 = some { t1 with EndSessionStartTimepoint := a2 }) := by
  constructor
  · obtain ⟨cs, os, pc, qu, th, es, tp0⟩ := s
    simp only at hthread hname
    subst hname
    simp [EndSession, hthread]
  · intro t t1 a b a2 b2 i g f i2 g2 f2 h
    unfold EndSession at h
    by_cases hj : t.mythread.joinable = true
    · simp only [hj, if_true] at h
      split at h
      · simp only [Option.some.injEq] at h
        subst h
        simp [EndSession, Thread.joinable]
      · exact absurd h (by simp)
    · simp only [hj] at h
      simp only [Bool.false_eq_true, if_false, Option.some.injEq] at h
      subst h
      simp [EndSession, hj]

/-- Witness of C7 at the freshly constructed controller. -/
theorem EndSession_idle_noop_witness :
    fresh.mythread.joinable = false ∧ fresh.CurrentSession = "" ∧
      EndSession 5 6 1 0 0 fresh = some { fresh with EndSessionStartTimepoint := 5 } :=
  ⟨by decide, by decide, (EndSession_idle_noop 5 6 1 0 0 fresh (by decide) (by decide)).1⟩

/-- C8 (the code departs from it): after a first session has ended on a fresh
controller, the shutdown flag is still set.  The consumer of a second session
therefore writes the closing record and the footer and returns at its first
pass, before any `EndSession`; a record pushed afterwards stays in the queue,
and the second file, after the second `EndSession`, holds the header, the
closing record and the footer only. -/
theorem second_session_closes_before_EndSession :
    (runSession true "first" "a.json" [] 100 110 1 0 2 fresh).map
        (fun s => (s.CurrentSession, s.mythread, s.endSession)) =
      some ("", Thread.empty, true) ∧
    ((runSession true "first" "a.json" [] 100 110 1 0 2 fresh).bind
        (fun s => (BeginSession true "second" "b.json" s).state?)).map
        (fun s => (LoopStep 200 2 (LoopStep 200 2 s)).mythread) =
      some Thread.finished ∧
    ((runSession true "first" "a.json" [] 100 110 1 0 2 fresh).bind
        (fun s => (BeginSession true "second" "b.json" s).state?)).map
        (fun s => (LoopStep 200 2 (LoopStep 200 2 s)).OStream) =
      some { isOpen := false, path := "b.json",
             text := Spec.traceFile [Spec.closingRecord "second" 100 200 2] } ∧
    ((runSession true "first" "a.json" [] 100 110 1 0 2 fresh).bind
        (runSession true "second" "b.json"
          [Action.consume 200 2, Action.consume 200 2, Action.push sampleA] 300 310 2 0 5)).map
        (fun s => (s.OStream.text, s.Queue)) =
      some (Spec.traceFile [Spec.closingRecord "second" 100 200 2], [sampleA]) := by
  decide

/-- C9 as stated fails for the empty session name: `BeginSession("", path)` on
the fresh controller returns, and `AddProfileResult` then reaches `exit(1)`. -/
theorem AddProfileResult_exits_in_session_named_empty :
    Spec.Inactive fresh ∧
      ∃ sb : Instrumentor,
        BeginSession true "" "trace.json" fresh = Outcome.returned sb ∧
        AddProfileResult sampleA sb = Outcome.exited 1 sb :=
  ⟨⟨rfl, rfl⟩, _, rfl, by decide⟩

/-- C9, amended: for a non-empty session name, `BeginSession` called from the
inactive state returns and leaves the session active, and after any schedule of
pushes, consumer steps and wake-ups the session is still active, with the same
name, and `AddProfileResult` returns with the record appended at the tail of
the queue, the session still active. -/
theorem AddProfileResult_in_active_session (opens : Bool) (name filepath : String)
    (acts : List Action) (pr : ProfileResult) (s0 : Instrumentor)
    (hin : Spec.Inactive s0) (hname : name ≠ "") :
    ∃ sb s1 s2 : Instrumentor,
      BeginSession opens name filepath s0 = Outcome.returned sb ∧
      Spec.Active sb ∧
      runActions acts sb = Outcome.returned s1 ∧
      Spec.Active s1 ∧ s1.CurrentSession = name ∧
      AddProfileResult pr s1 = Outcome.returned s2 ∧
      s2.Queue = s1.Queue ++ [pr] ∧
      s2.CurrentSession = s1.CurrentSession ∧ s2.OStream = s1.OStream ∧
      s2.ProfileCount = s1.ProfileCount ∧ s2.endSession = s1.endSession ∧
      Spec.Active s2 := by
  have hb := BeginSession_returns opens name filepath s0 hin
  obtain ⟨s1, hr, hc, hj⟩ := run_active name hname acts
    { s0 with
      ProfileCount := 0
      OStream := s0.OStream.openPath opens filepath
      CurrentSession := name
      mythread := Thread.spawned } rfl rfl
  have hne : s1.CurrentSession ≠ "" := by rw [hc]; exact hname
  refine ⟨_, s1, notify_one { s1 with Queue := s1.Queue ++ [pr] }, hb, ⟨hname, rfl⟩, hr,
    ⟨hne, hj⟩, hc, by simp [AddProfileResult, hne], ?_⟩
  rw [notify_one_eq]
  refine ⟨rfl, rfl, rfl, rfl, rfl, hne, ?_⟩
  cases hth : s1.mythread <;> simp_all [Thread.joinable]

/-- Witness of the amended C9: the sample schedule in a session named `main`,
then a push of `sampleB`. -/
theorem AddProfileResult_in_active_session_witness :
    Spec.Inactive fresh ∧ ("main" : String) ≠ "" ∧
      ∃ sb s1 s2 : Instrumentor,
        BeginSession true "main" "trace.json" fresh = Outcome.returned sb ∧
        Spec.Active sb ∧
        runActions sampleActs sb = Outcome.returned s1 ∧
        Spec.Active s1 ∧ s1.CurrentSession = "main" ∧
        AddProfileResult sampleB s1 = Outcome.returned s2 ∧
        s2.Queue = s1.Queue ++ [sampleB] ∧
        s2.CurrentSession = s1.CurrentSession ∧ s2.OStream = s1.OStream ∧
        s2.ProfileCount = s1.ProfileCount ∧ s2.endSession = s1.endSession ∧
        Spec.Active s2 :=
  ⟨⟨rfl, rfl⟩, by decide,
    AddProfileResult_in_active_session true "main" "trace.json" sampleActs sampleB fresh
      ⟨rfl, rfl⟩ (by decide)⟩

/-- C10 (the code departs from it): `EndSession` stores the flag and notifies
without holding `cvMutex`.  On the fresh controller, let the consumer write the
header and find the wait predicate false, and let a record be pushed before
the consumer blocks; the push's notification finds nobody waiting.  When
`EndSession` is then called and its notification too arrives before the
consumer blocks, the consumer blocks with the flag set and one record queued:
the loop does not terminate after one drain pass or any number of passes, the
record is never written and `EndSession` never returns.  Had the consumer been
scheduled once between the store and the notification, it would have drained
the record and returned. -/
theorem consumer_stays_blocked_after_lost_notify :
    (∃ sb s1 : Instrumentor,
      BeginSession true "main" "trace.json" fresh = Outcome.returned sb ∧
      runActions sampleLostNotify sb = Outcome.returned s1 ∧
      s1.mythread = Thread.parking ∧ s1.Queue = [sampleA] ∧
      s1.OStream.text = Spec.header ∧
      (∀ fuel : Nat, EndSession 5000 5010 1 0 fuel s1 = none) ∧
      (∀ n : Nat,
        ((LoopStep 5010 1)^[n + 1] (notify_one
          { s1 with EndSessionStartTimepoint := 5000, endSession := true })).mythread =
            Thread.parked ∧
        ((LoopStep 5010 1)^[n + 1] (notify_one
          { s1 with EndSessionStartTimepoint := 5000, endSession := true })).Queue =
            [sampleA])) ∧
    (∀ fuel : Nat,
      runSession true "main" "trace.json" sampleLostNotify 5000 5010 1 0 fuel fresh = none) ∧
    (runSession true "main" "trace.json" sampleLostNotify 5000 5010 1 1 3 fresh).map
        (fun s => (s.OStream.text, s.Queue)) =
      some (Spec.traceFile [sampleA, Spec.closingRecord "main" 5000 5010 1], []) := by
  have hb : BeginSession true "main" "trace.json" fresh = Outcome.returned
      { fresh with
        ProfileCount := 0
        OStream := fresh.OStream.openPath true "trace.json"
        CurrentSession := "main"
        mythread := Thread.spawned } := BeginSession_returns true _ _ fresh ⟨rfl, rfl⟩
  have hr : ∃ s1, runActions sampleLostNotify
      { fresh with
        ProfileCount := 0
        OStream := fresh.OStream.openPath true "trace.json"
        CurrentSession := "main"
        mythread := Thread.spawned } = Outcome.returned s1 ∧
      s1.mythread = Thread.parking ∧ s1.Queue = [sampleA] ∧
      s1.OStream.text = Spec.header := ⟨_, rfl, by decide, by decide, by decide⟩
  obtain ⟨s1, hr1, hpk, hq, htx⟩ := hr
  have hblock : ∀ fuel : Nat, EndSession 5000 5010 1 0 fuel s1 = none :=
    fun fuel => EndSession_blocks 5000 5010 1 fuel s1 hpk
  refine ⟨⟨_, s1, hb, hr1, hpk, hq, htx, hblock, ?_⟩, ?_, by decide⟩
  · intro n
    rw [notify_one_eq, Function.iterate_succ_apply, LoopStep_parking _ _ _ (by simp [hpk])]
    induction n with
    | zero => exact ⟨rfl, hq⟩
    | succ n ih =>
      rw [Function.iterate_succ_apply, LoopStep_parked _ _ _ (by rfl)]
      exact ih
  · intro fuel
    simp only [runSession, hb, hr1]
    exact hblock fuel

end Profiling
